import Mathlib

/-!
Shallow embedding of the OAuth device-flow credential broker
(`src/qwen/oauth.ts`, `src/plugin/auth.ts`, `src/index.ts`).

Conventions of the embedding:
* JavaScript numbers (epoch milliseconds, `expires_in` seconds, poll
  intervals) are modelled as rationals `ℚ`; `Date.now()` is passed in
  explicitly as a `now` argument.
* Optional / possibly-`undefined` fields are `Option` values; the
  JavaScript truthiness tests (`x || y`, `if (!x)`) are modelled by
  explicit helpers (`jsOrStr`, `jsOrQ`, `jsOrD`, `truthyStr`, `truthyNum`)
  that treat `none`, `some ""` and `some 0` as falsy, exactly as the
  source does.
* `fetch` responses are modelled as inductive values describing the
  status, the parse of the body, and the raw body text; a thrown
  `Error` is modelled as a `failed`/`Except.error` value carrying the
  message string the source builds.
* The credential file is modelled by `FileState`: missing, present but
  not JSON-parseable, or parsed into the relevant fields.
-/

namespace QwenAuth

/-- JavaScript `a || b` for string-valued optionals: `a` wins when it is
truthy (present and nonempty), otherwise the result is `b`. -/
def jsOrStr (a b : Option String) : Option String :=
  match a with
  | some s => if s = "" then b else some s
  | none => b

/-- JavaScript `a || b` for number-valued optionals: `a` wins when it is
truthy (present and nonzero), otherwise the result is `b`. -/
def jsOrQ (a b : Option ℚ) : Option ℚ :=
  match a with
  | some q => if q = 0 then b else some q
  | none => b

/-- JavaScript `a || d` where `d` is a plain (truthy) default string. -/
def jsOrD (a : Option String) (d : String) : String :=
  match a with
  | some s => if s = "" then d else s
  | none => d

/-- Truthiness of an optional string (`undefined` and `""` are falsy). -/
def truthyStr (a : Option String) : Bool :=
  match a with
  | some s => s ≠ ""
  | none => false

/-- Truthiness of an optional number (`undefined` and `0` are falsy). -/
def truthyNum (a : Option ℚ) : Bool :=
  match a with
  | some q => q ≠ 0
  | none => false

/-- `xs` starts with `ps` (character-by-character). -/
def charsStartWith : List Char → List Char → Bool
  | _, [] => true
  | [], _ :: _ => false
  | c :: cs, p :: ps => (c = p) && charsStartWith cs ps

/-- Naive substring search over character lists. -/
def charsIncludes : List Char → List Char → Bool
  | [], pat => pat.isEmpty
  | c :: cs, pat => charsStartWith (c :: cs) pat || charsIncludes cs pat

/-- JavaScript `s.includes(pat)`. -/
def strIncludes (s pat : String) : Bool :=
  charsIncludes s.data pat.data

/-- `TokenResponse` interface of `src/qwen/oauth.ts` (wire shape of the
token endpoint's success body). -/
structure TokenResponse where
  access_token : String
  refresh_token : Option String
  token_type : Option String
  expires_in : ℚ
  scope : Option String
  resource_url : Option String
deriving DecidableEq, Repr

/-- `DeviceAuthorizationResponse` interface of `src/qwen/oauth.ts`. -/
structure DeviceAuthorizationResponse where
  device_code : String
  user_code : String
  verification_uri : String
  verification_uri_complete : String
  expires_in : ℚ
deriving DecidableEq, Repr

/-- `QwenCredentials` domain record of `src/types.ts`. -/
structure QwenCredentials where
  accessToken : String
  tokenType : Option String
  refreshToken : Option String
  resourceUrl : Option String
  expiryDate : Option ℚ
  scope : Option String
deriving DecidableEq, Repr

/-- The `{error?, error_description?}` shape the poller tries to parse a
non-2xx body into. -/
structure ErrBody where
  error : Option String
  error_description : Option String
deriving DecidableEq, Repr

/-- A token-endpoint response as seen by `pollDeviceToken`: either a 2xx
response whose JSON body is a `TokenResponse`, or a non-2xx response with
its status, status text, the result of `JSON.parse` on the body (`none`
when parsing throws a `SyntaxError`), and the raw body text. -/
inductive PollHttp where
  | okResp (t : TokenResponse)
  | errResp (status : Nat) (statusText : String) (parse : Option ErrBody) (raw : String)
deriving DecidableEq, Repr

/-- Outcome of one `pollDeviceToken` call: resolved token, `null`
(still pending), or a thrown `Error` with its message. -/
inductive PollOutcome where
  | success (t : TokenResponse)
  | pending
  | failed (msg : String)
deriving DecidableEq, Repr

/-- Message of the error thrown when the non-2xx body parses as the
error shape but is not a pending/slow-down signal
(`src/qwen/oauth.ts` line 145). -/
def tokenPollErrMsg (e : ErrBody) (raw : String) : String :=
  "Token poll failed: " ++ jsOrD e.error "Unknown error" ++ " - " ++
    jsOrD e.error_description raw

/-- Message of the error thrown when the non-2xx body fails to parse as
JSON (`src/qwen/oauth.ts` line 150). -/
def tokenPollStatusMsg (status : Nat) (statusText raw : String) : String :=
  "Token poll failed: " ++ toString status ++ " " ++ statusText ++
    ". Response: " ++ raw

/-- `pollDeviceToken` of `src/qwen/oauth.ts` (lines 108–159), as a
function of the token-endpoint response.  The `deviceCode` and
`codeVerifier` arguments of the source only shape the request body and
do not affect how the response is interpreted, so they are omitted. -/
def pollDeviceToken : PollHttp → PollOutcome
  | .okResp t => .success t
  | .errResp status _ (some e) raw =>
      if status = 400 ∧ e.error = some "authorization_pending" then .pending
      else if status = 429 ∧ e.error = some "slow_down" then .pending
      else .failed (tokenPollErrMsg e raw)
  | .errResp status statusText none raw =>
      .failed (tokenPollStatusMsg status statusText raw)

/-- `tokenResponseToCredentials` of `src/qwen/oauth.ts` (lines 164–173);
`now` is the value of `Date.now()` at conversion time. -/
def tokenResponseToCredentials (now : ℚ) (t : TokenResponse) : QwenCredentials :=
  { accessToken := t.access_token
    tokenType := some (jsOrD t.token_type "Bearer")
    refreshToken := t.refresh_token
    resourceUrl := t.resource_url
    expiryDate := some (now + t.expires_in * 1000)
    scope := t.scope }

/-- `isCredentialsExpired` of `src/qwen/oauth.ts` (lines 215–222):
`!credentials.expiryDate` is the JavaScript falsiness test, so both an
absent and a zero `expiryDate` short-circuit to `false`. -/
def isCredentialsExpired (now : ℚ) (c : QwenCredentials) : Bool :=
  match c.expiryDate with
  | none => false
  | some e => if e = 0 then false else decide (e - 30 * 1000 < now)

/-- A token-endpoint response as seen by `refreshAccessToken`: a 2xx
response with a `TokenResponse` body, or a non-2xx response with its
status and raw body text. -/
inductive RefreshHttp where
  | okResp (t : TokenResponse)
  | errResp (status : Nat) (raw : String)
deriving DecidableEq, Repr

/-- Message of the error thrown by `refreshAccessToken` on a non-2xx
response (`src/qwen/oauth.ts` line 196). -/
def refreshFailedMsg (status : Nat) (raw : String) : String :=
  "Token refresh failed: " ++ toString status ++ " - " ++ raw

/-- `refreshAccessToken` of `src/qwen/oauth.ts` (lines 178–209);
`now` is `Date.now()` at response time, `refreshTok` the argument. -/
def refreshAccessToken (now : ℚ) (refreshTok : String) :
    RefreshHttp → Except String QwenCredentials
  | .okResp d =>
      .ok { accessToken := d.access_token
            tokenType := some (jsOrD d.token_type "Bearer")
            refreshToken := some (jsOrD d.refresh_token refreshTok)
            resourceUrl := d.resource_url
            expiryDate := some (now + d.expires_in * 1000)
            scope := d.scope }
  | .errResp s raw => .error (refreshFailedMsg s raw)

/-- The fields of the parsed credential file that `loadCredentials`
inspects (`src/plugin/auth.ts` lines 42–56): both the snake_case
wire-style and the camelCase domain-style variant of each field. -/
structure CredsFile where
  access_token : Option String
  accessToken : Option String
  token_type : Option String
  tokenType : Option String
  refresh_token : Option String
  refreshToken : Option String
  resource_url : Option String
  resourceUrl : Option String
  expiry_date : Option ℚ
  expiresAt : Option ℚ
  expires_at : Option ℚ
  scope : Option String
deriving DecidableEq, Repr

/-- State of the credential file on disk: absent, present but not
JSON-parseable, or parsed. -/
inductive FileState where
  | missing
  | malformed (raw : String)
  | parsed (f : CredsFile)
deriving DecidableEq, Repr

/-- The object written by `saveCredentials` (`src/plugin/auth.ts` lines
78–85): snake_case keys only; `JSON.stringify` drops `undefined`
values, which `Option` models directly. -/
def saveFile (c : QwenCredentials) : CredsFile :=
  { access_token := some c.accessToken
    accessToken := none
    token_type := some (jsOrD c.tokenType "Bearer")
    tokenType := none
    refresh_token := c.refreshToken
    refreshToken := none
    resource_url := c.resourceUrl
    resourceUrl := none
    expiry_date := c.expiryDate
    expiresAt := none
    expires_at := none
    scope := c.scope }

/-- `saveCredentials` of `src/plugin/auth.ts` (lines 69–88), as a state
transformer on the credential file: a whole-file overwrite. -/
def saveCredentials (c : QwenCredentials) : FileState :=
  .parsed (saveFile c)

/-- The normalization body of `loadCredentials` (`src/plugin/auth.ts`
lines 47–57) applied to a successfully parsed file: the guard is the
truthiness of `parsed.access_token || parsed.accessToken`, and each
field is the source's `||` chain. -/
def loadParsed (f : CredsFile) : Option QwenCredentials :=
  match jsOrStr f.access_token f.accessToken with
  | some a =>
      if a = "" then none
      else
        some { accessToken := a
               tokenType := some (jsOrD (jsOrStr f.token_type f.tokenType) "Bearer")
               refreshToken := jsOrStr f.refresh_token f.refreshToken
               resourceUrl := jsOrStr f.resource_url f.resourceUrl
               expiryDate := jsOrQ f.expiry_date (jsOrQ f.expiresAt f.expires_at)
               scope := f.scope }
  | none => none

/-- `loadCredentials` of `src/plugin/auth.ts` (lines 35–64): `null` when
the file does not exist, `null` (via the catch block) when it fails to
parse, otherwise the normalization of the parsed object. -/
def loadCredentials : FileState → Option QwenCredentials
  | .missing => none
  | .malformed _ => none
  | .parsed f => loadParsed f

/-- `QWEN_API_CONFIG.baseUrl` of `src/constants.ts`. -/
def QWEN_BASE_URL : String := "https://portal.qwen.ai/v1"

/-- `getBaseUrl` of `src/index.ts` (lines 34–40). -/
def getBaseUrl (resourceUrl : Option String) : String :=
  match resourceUrl with
  | none => QWEN_BASE_URL
  | some r =>
      if r = "" then QWEN_BASE_URL
      else if r.startsWith "http" then
        (if r.endsWith "/v1" then r else r ++ "/v1")
      else "https://" ++ r ++ "/v1"

/-- `checkExistingCredentials` of `src/index.ts` (lines 54–63). -/
def checkExistingCredentials (now : ℚ) (store : FileState) : Option QwenCredentials :=
  match store with
  | .missing => none
  | s =>
      match loadCredentials s with
      | some c => if isCredentialsExpired now c then none else some c
      | none => none

/-- `getValidCredentials` of `src/plugin/auth.ts` (lines 93–111), with
the file state passed explicitly; `refreshResp` is the token endpoint's
response to the refresh request, should one be issued.  Returns the
file state after the call together with the returned credentials. -/
def getValidCredentials (now : ℚ) (refreshResp : RefreshHttp) (store : FileState) :
    FileState × Option QwenCredentials :=
  match loadCredentials store with
  | none => (store, none)
  | some c =>
      match c.refreshToken with
      | some r =>
          if isCredentialsExpired now c ∧ r ≠ "" then
            match refreshAccessToken now r refreshResp with
            | .ok newC => (saveCredentials newC, some newC)
            | .error _ => (store, none)
          else (store, some c)
      | none => (store, some c)

/-- The host-supplied auth record the plugin `loader` receives
(`src/index.ts` line 75). -/
structure HostAuth where
  type : String
  access : Option String
  refresh : Option String
  expires : Option ℚ
deriving DecidableEq, Repr

/-- The `{apiKey, baseURL}` object the `loader` returns on success. -/
structure LoaderOk where
  apiKey : String
  baseURL : String
deriving DecidableEq, Repr

/-- The refresh guard of the `loader` (`src/index.ts` line 102):
`accessToken && auth.expires && Date.now() > auth.expires - 30000 &&
auth.refresh`, with JavaScript truthiness on each operand. -/
def shouldRefresh (now : ℚ) (a : HostAuth) : Bool :=
  truthyStr a.access && truthyNum a.expires &&
    decide (a.expires.getD 0 - 30000 < now) && truthyStr a.refresh

/-- Shared fallback of the `loader` for a missing/non-OAuth host
credential (`src/index.ts` lines 81–90). -/
def loaderFallback (now : ℚ) (store : FileState) : FileState × Option LoaderOk :=
  match checkExistingCredentials now store with
  | some c => (store, some { apiKey := c.accessToken, baseURL := getBaseUrl c.resourceUrl })
  | none => (store, none)

/-- The `loader` of `src/index.ts` (lines 74–136), with the host auth
record, the clock, the refresh response and the file state passed
explicitly.  Returns the file state after the call and the result
(`none` models the `return null` paths; a refresh failure is caught
and only clears the candidate token, it is never propagated). -/
def loader (now : ℚ) (auth : Option HostAuth) (refreshResp : RefreshHttp)
    (store : FileState) : FileState × Option LoaderOk :=
  match auth with
  | none => loaderFallback now store
  | some a =>
      if a.type ≠ "oauth" then loaderFallback now store
      else
        let afterRefresh : FileState × Option String :=
          if shouldRefresh now a then
            match refreshAccessToken now (a.refresh.getD "") refreshResp with
            | .ok refreshed => (saveCredentials refreshed, some refreshed.accessToken)
            | .error _ => (store, none)
          else (store, a.access)
        let store1 := afterRefresh.1
        let accFinal : Option String :=
          if truthyStr afterRefresh.2 then afterRefresh.2
          else (checkExistingCredentials now store1).map (·.accessToken)
        match accFinal with
        | none => (store1, none)
        | some tok =>
            if tok = "" then (store1, none)
            else
              (store1,
                some ⟨tok, getBaseUrl ((loadCredentials store1).bind QwenCredentials.resourceUrl)⟩)

/-- The base64url alphabet (RFC 4648 §5), as used by Node's
`Buffer.toString('base64url')`. -/
def B64URL_ALPHABET : String :=
  "ABCDEFGHIJKLMNOPQRSTUVWXYZabcdefghijklmnopqrstuvwxyz0123456789-_"

/-- The character for a 6-bit group. -/
def b64urlChar (n : Nat) : Char :=
  B64URL_ALPHABET.data.getD n '?'

/-- base64url encoding of a byte list, without padding, as produced by
Node's `Buffer.toString('base64url')`. -/
def b64urlEncode : List Nat → List Char
  | a :: b :: c :: rest =>
      b64urlChar (a / 4) :: b64urlChar (a % 4 * 16 + b / 16) ::
        b64urlChar (b % 16 * 4 + c / 64) :: b64urlChar (c % 64) :: b64urlEncode rest
  | [a, b] => [b64urlChar (a / 4), b64urlChar (a % 4 * 16 + b / 16), b64urlChar (b % 16 * 4)]
  | [a] => [b64urlChar (a / 4), b64urlChar (a % 4 * 16)]
  | [] => []

/-- The ASCII bytes of a string (`createHash('sha256').update(verifier)`
hashes the verifier's ASCII bytes; the verifier is base64url text, so
every character is ASCII). -/
def asciiBytes (s : String) : List Nat :=
  s.data.map Char.toNat

/-- `generatePKCE` of `src/qwen/oauth.ts` (lines 39–46).  The two
Node-crypto externals are passed in: `sha256Fn` models
`createHash('sha256')...digest()` as a byte-list function, and
`randomBytes` is the output of `randomBytes(32)` (the source always
requests 32 bytes). -/
def generatePKCE (sha256Fn : List Nat → List Nat) (randomBytes : List Nat) :
    String × String :=
  let verifier : String := ⟨b64urlEncode randomBytes⟩
  let challenge : String := ⟨b64urlEncode (sha256Fn (asciiBytes verifier))⟩
  (verifier, challenge)

/-- Result of the poll loop of `performDeviceAuthFlow`
(`src/qwen/oauth.ts` lines 243–265): converted credentials on success,
the `'Device authorization timeout'` error when the deadline guard
fails, a rethrown poll error, or `exhausted` when the supplied response
trace runs out before the loop decides (a fuel artifact of the
embedding, impossible for a long enough trace). -/
inductive FlowResult where
  | success (c : QwenCredentials)
  | timeout
  | failed (msg : String)
  | exhausted
deriving DecidableEq, Repr

/-- The poll loop of `performDeviceAuthFlow` (`src/qwen/oauth.ts` lines
243–263), driven by the trace of token-endpoint responses.  Each
iteration first re-checks `Date.now() - startTime < timeoutMs`, then
sleeps `interval` milliseconds, then polls (so the poll lands at
`now + interval`); a successful response resolves at that instant, a
`null` keeps the interval, a thrown error whose message contains
`slow_down` sets the interval to `min(interval * 1.5, 10000)`, and any
other error is rethrown.  Returns the instants at which polls were
issued together with the loop's result. -/
def authFlowRun (startTime timeoutMs : ℚ) :
    List PollHttp → ℚ → ℚ → List ℚ × FlowResult
  | [], now, _ =>
      if now - startTime < timeoutMs then ([], .exhausted) else ([], .timeout)
  | r :: rs, now, interval =>
      if now - startTime < timeoutMs then
        match pollDeviceToken r with
        | .success t =>
            ([now + interval], .success (tokenResponseToCredentials (now + interval) t))
        | .pending =>
            let next := authFlowRun startTime timeoutMs rs (now + interval) interval
            ((now + interval) :: next.1, next.2)
        | .failed msg =>
            if strIncludes msg "slow_down" then
              let next := authFlowRun startTime timeoutMs rs (now + interval)
                (min (interval * (3 / 2)) 10000)
              ((now + interval) :: next.1, next.2)
            else ([now + interval], .failed msg)
      else ([], .timeout)

/-- The poll phase of `performDeviceAuthFlow` (`src/qwen/oauth.ts`
lines 228–266) after device authorization succeeded: the loop starts at
`startTime` with interval `pollIntervalMs` (source default 2000) and
deadline `timeoutMs` (source default 300000); the device code's
`expires_in` is never consulted by this loop. -/
def performDeviceAuthFlow (resps : List PollHttp)
    (startTime pollIntervalMs timeoutMs : ℚ) : List ℚ × FlowResult :=
  authFlowRun startTime timeoutMs resps startTime pollIntervalMs

/-- The responses `pollDeviceToken` treats as "no result yet": HTTP 400
with `error=authorization_pending`, or HTTP 429 with `error=slow_down`. -/
def isPendingSignal : PollHttp → Prop
  | .errResp s _ (some e) _ =>
      (s = 400 ∧ e.error = some "authorization_pending") ∨
      (s = 429 ∧ e.error = some "slow_down")
  | _ => False

/-- Sample HTTP 400 `authorization_pending` response. -/
def pendingResp : PollHttp :=
  .errResp 400 "Bad Request"
    (some { error := some "authorization_pending", error_description := none }) "pending_raw"

/-- Sample HTTP 429 `slow_down` response. -/
def slowDownResp : PollHttp :=
  .errResp 429 "Too Many Requests"
    (some { error := some "slow_down", error_description := none }) "slow_raw"

/-- Sample successful token response. -/
def okTokResp : PollHttp :=
  .okResp { access_token := "tok", refresh_token := none, token_type := some "Bearer",
            expires_in := 3600, scope := none, resource_url := none }

/-- Sample device authorization whose device code expires one second
after issuance. -/
def sampleDeviceAuth : DeviceAuthorizationResponse :=
  { device_code := "d1", user_code := "ABCD-1234", verification_uri := "https://x/d",
    verification_uri_complete := "https://x/d?code=ABCD-1234", expires_in := 1 }

/-- Sample credential whose `expiryDate` is present but zero. -/
def zeroExpiryCreds : QwenCredentials :=
  { accessToken := "t", tokenType := none, refreshToken := none,
    resourceUrl := none, expiryDate := some 0, scope := none }

/-- Sample refresh-grant token response without a new refresh token. -/
def sampleRefreshOk : TokenResponse :=
  { access_token := "newacc", refresh_token := none, token_type := some "Bearer",
    expires_in := 3600, scope := none, resource_url := none }

/-- Sample host OAuth credential whose access token expired long ago
and which carries a refresh token. -/
def hostAuthSample : HostAuth :=
  { type := "oauth", access := some "hosttok", refresh := some "r", expires := some 100 }

/-!  ## Theorems  -/

/-- Claim C3, counterexample.  The claim "`isExpired(credentials)` is
true iff `expiryDate` is present and `now > expiryDate - 30000`" fails
for a credential whose `expiryDate` is present with value `0`: the
source's `!credentials.expiryDate` falsiness guard returns `false`
although `0 - 30000 < 1000`. -/
theorem isCredentialsExpired_zero_expiry_cex :
    ¬ (isCredentialsExpired 1000 zeroExpiryCreds = true ↔
        ∃ e : ℚ, zeroExpiryCreds.expiryDate = some e ∧ e - 30000 < 1000) := by
  intro h
  have hrhs : ∃ e : ℚ, zeroExpiryCreds.expiryDate = some e ∧ e - 30000 < 1000 :=
    ⟨0, rfl, by norm_num⟩
  have hfalse : isCredentialsExpired 1000 zeroExpiryCreds = true := h.mpr hrhs
  norm_num [isCredentialsExpired, zeroExpiryCreds] at hfalse

/-- Claim C3, amended.  `isCredentialsExpired` is true iff `expiryDate`
is present with a nonzero value and `now > expiryDate - 30000`
milliseconds; an absent — or zero, since the source tests JavaScript
falsiness — `expiryDate` yields `false` (never expires). -/
theorem isCredentialsExpired_iff (now : ℚ) (c : QwenCredentials) :
    isCredentialsExpired now c = true ↔
      ∃ e : ℚ, c.expiryDate = some e ∧ e ≠ 0 ∧ e - 30000 < now := by
  unfold isCredentialsExpired
  cases h : c.expiryDate with
  | none => simp
  | some e =>
      by_cases he : e = 0
      · simp [he]
      · simp only [he, if_false, decide_eq_true_eq]
        constructor
        · intro hlt
          exact ⟨e, rfl, he, by linarith⟩
        · rintro ⟨e', he', hne, hlt⟩
          obtain rfl : e = e' := by simpa using he'
          linarith

/-- Claim C4, counterexample.  The claim says every non-pending
non-2xx response raises an error "carrying the HTTP status and raw
body"; but when the body parses as the error shape, the thrown message
is built only from `error` and `error_description`: for HTTP 400
`access_denied` with a description, the message contains neither the
status string nor the raw body. -/
theorem pollDeviceToken_error_lacks_status_cex :
    pollDeviceToken (.errResp 400 "Bad Request"
        (some { error := some "access_denied", error_description := some "denied" })
        "raw_body_text")
      = .failed "Token poll failed: access_denied - denied" ∧
    strIncludes "Token poll failed: access_denied - denied" "400" = false ∧
    strIncludes "Token poll failed: access_denied - denied" "raw_body_text" = false := by
  decide

/-- Claim C4, amended.  `pollDeviceToken` returns `null` exactly for
HTTP 400 `authorization_pending` and HTTP 429 `slow_down` (never raising
them); a 2xx response returns the parsed token; a non-2xx body that
fails to parse raises an error carrying the HTTP status and raw body;
any other parseable non-2xx raises an error carrying the server's
`error` code and its `error_description` (falling back to the raw body
when the description is absent), but not the HTTP status. -/
theorem pollDeviceToken_cases (r : PollHttp) :
    (pollDeviceToken r = .pending ↔ isPendingSignal r) ∧
    (∀ t, r = .okResp t → pollDeviceToken r = .success t) ∧
    (∀ s st raw, r = .errResp s st none raw →
        pollDeviceToken r = .failed (tokenPollStatusMsg s st raw)) ∧
    (∀ s st e raw, r = .errResp s st (some e) raw → ¬ isPendingSignal r →
        pollDeviceToken r = .failed (tokenPollErrMsg e raw)) := by
  refine ⟨?_, ?_, ?_, ?_⟩
  · cases r with
    | okResp t => simp [pollDeviceToken, isPendingSignal]
    | errResp s st p raw =>
        cases p with
        | none => simp [pollDeviceToken, isPendingSignal]
        | some e =>
            simp only [pollDeviceToken, isPendingSignal]
            split_ifs with h1 h2
            · exact iff_of_true rfl (Or.inl h1)
            · exact iff_of_true rfl (Or.inr h2)
            · simp [h1, h2]
  · rintro t rfl; rfl
  · rintro s st raw rfl; rfl
  · rintro s st e raw rfl hnp
    simp only [isPendingSignal] at hnp
    simp only [pollDeviceToken]
    rw [if_neg (fun h => hnp (Or.inl h)), if_neg (fun h => hnp (Or.inr h))]

/-- Claim C4, witness for the amended theorem: concrete instances of
the two error branches. -/
theorem pollDeviceToken_cases_witness :
    pollDeviceToken (.errResp 404 "Not Found" none "nf")
      = .failed (tokenPollStatusMsg 404 "Not Found" "nf") ∧
    pollDeviceToken (.errResp 403 "Forbidden"
        (some { error := some "denied", error_description := none }) "raw")
      = .failed (tokenPollErrMsg { error := some "denied", error_description := none } "raw") :=
  ⟨(pollDeviceToken_cases (.errResp 404 "Not Found" none "nf")).2.2.1
      404 "Not Found" "nf" rfl,
   (pollDeviceToken_cases (.errResp 403 "Forbidden"
        (some { error := some "denied", error_description := none }) "raw")).2.2.2
      403 "Forbidden" { error := some "denied", error_description := none } "raw" rfl
      (by simp [isPendingSignal])⟩

/-- Claim C9.  `loadCredentials` yields "absent" (never an exception:
the source's catch block converts parse failures to `null`) when the
file is missing or not JSON-parseable, and the callers
`checkExistingCredentials` and `getValidCredentials` treat that result
exactly like having no credentials. -/
theorem loadCredentials_absent_cases :
    loadCredentials FileState.missing = none ∧
    (∀ raw, loadCredentials (FileState.malformed raw) = none) ∧
    (∀ now, checkExistingCredentials now FileState.missing = none) ∧
    (∀ now raw, checkExistingCredentials now (FileState.malformed raw) = none) ∧
    (∀ now resp, getValidCredentials now resp FileState.missing
        = (FileState.missing, none)) ∧
    (∀ now resp raw, getValidCredentials now resp (FileState.malformed raw)
        = (FileState.malformed raw, none)) :=
  ⟨rfl, fun _ => rfl, fun _ => rfl, fun _ _ => rfl, fun _ _ => rfl, fun _ _ _ => rfl⟩

/-- Claim C6.  `refreshAccessToken`: a 2xx response yields credentials
whose `expiryDate` is `now + expires_in * 1000` and whose refresh token
is the server's new one, falling back to the old one when the server
returns none (absent, or empty — the source tests JavaScript
falsiness); any non-2xx response fails with the token-refresh error
carrying status and raw body. -/
theorem refreshAccessToken_spec (now : ℚ) (oldTok : String) (resp : RefreshHttp) :
    (∀ d, resp = RefreshHttp.okResp d →
      ∃ c, refreshAccessToken now oldTok resp = .ok c ∧
        c.accessToken = d.access_token ∧
        c.expiryDate = some (now + d.expires_in * 1000) ∧
        ((∃ s, d.refresh_token = some s ∧ s ≠ "" ∧ c.refreshToken = some s) ∨
         ((d.refresh_token = none ∨ d.refresh_token = some "") ∧
            c.refreshToken = some oldTok))) ∧
    (∀ st raw, resp = RefreshHttp.errResp st raw →
      refreshAccessToken now oldTok resp = .error (refreshFailedMsg st raw)) := by
  constructor
  · rintro d rfl
    refine ⟨_, rfl, rfl, rfl, ?_⟩
    cases hr : d.refresh_token with
    | none => exact Or.inr ⟨Or.inl rfl, by simp [jsOrD, hr]⟩
    | some s =>
        by_cases hs : s = ""
        · subst hs
          exact Or.inr ⟨Or.inr rfl, by simp [jsOrD, hr]⟩
        · exact Or.inl ⟨s, rfl, hs, by simp [jsOrD, hr, hs]⟩
  · rintro st raw rfl; rfl

/-- Claim C6, witness: a concrete successful refresh with no new
refresh token, and a concrete failed refresh. -/
theorem refreshAccessToken_spec_witness :
    (∃ c, refreshAccessToken 7 "old" (RefreshHttp.okResp sampleRefreshOk) = .ok c ∧
      c.accessToken = sampleRefreshOk.access_token ∧
      c.expiryDate = some (7 + sampleRefreshOk.expires_in * 1000) ∧
      ((∃ s, sampleRefreshOk.refresh_token = some s ∧ s ≠ "" ∧ c.refreshToken = some s) ∨
       ((sampleRefreshOk.refresh_token = none ∨ sampleRefreshOk.refresh_token = some "") ∧
          c.refreshToken = some "old"))) ∧
    refreshAccessToken 7 "old" (RefreshHttp.errResp 500 "boom")
      = .error (refreshFailedMsg 500 "boom") :=
  ⟨(refreshAccessToken_spec 7 "old" (RefreshHttp.okResp sampleRefreshOk)).1
      sampleRefreshOk rfl,
   (refreshAccessToken_spec 7 "old" (RefreshHttp.errResp 500 "boom")).2 500 "boom" rfl⟩

/-- Claim C5, counterexample.  The round-trip `load(save(c))` does not
yield a record with identical fields for every valid `Credentials`
record: a credential whose `accessToken` is the empty string is saved
faithfully, but `loadCredentials` then fails its
`parsed.access_token || parsed.accessToken` truthiness guard and
returns absent. -/
theorem load_save_roundTrip_cex :
    ¬ ∃ c', loadCredentials (saveCredentials
        { accessToken := "", tokenType := some "Bearer", refreshToken := some "r",
          resourceUrl := none, expiryDate := some 5, scope := none }) = some c' := by
  norm_num [loadCredentials, saveCredentials, saveFile, loadParsed, jsOrStr]
  simp

/-- Claim C5, amended.  `load(save(c))` yields a record with identical
`accessToken`, `refreshToken`, `resourceUrl`, `expiryDate` and `scope`
for every credential none of whose values is JavaScript-falsy: the
`accessToken` is nonempty, the optional string fields are not the empty
string and the `expiryDate` is not zero (falsy values are dropped by
the `||` normalization chains of `loadCredentials`). -/
theorem load_save_roundTrip (c : QwenCredentials)
    (ha : c.accessToken ≠ "") (hr : c.refreshToken ≠ some "")
    (hu : c.resourceUrl ≠ some "") (he : c.expiryDate ≠ some 0) :
    ∃ c', loadCredentials (saveCredentials c) = some c' ∧
      c'.accessToken = c.accessToken ∧ c'.refreshToken = c.refreshToken ∧
      c'.resourceUrl = c.resourceUrl ∧ c'.expiryDate = c.expiryDate ∧
      c'.scope = c.scope := by
  obtain ⟨a, tt, rt, ru, ed, sc⟩ := c
  simp only at ha hr hu he
  simp only [loadCredentials, saveCredentials, saveFile, loadParsed, jsOrStr, jsOrQ,
    if_neg ha]
  refine ⟨_, rfl, rfl, ?_, ?_, ?_, rfl⟩
  · cases rt with
    | none => rfl
    | some s =>
        have hs : s ≠ "" := fun h => hr (by rw [h])
        simp [hs]
  · cases ru with
    | none => rfl
    | some s =>
        have hs : s ≠ "" := fun h => hu (by rw [h])
        simp [hs]
  · cases ed with
    | none => rfl
    | some q =>
        have hq : q ≠ 0 := fun h => he (by rw [h])
        simp [hq]

/-- Claim C5, witness: a concrete non-falsy credential round-trips. -/
theorem load_save_roundTrip_witness :
    ("a" ≠ "") ∧
    (∃ c', loadCredentials (saveCredentials
        { accessToken := "a", tokenType := none, refreshToken := some "r",
          resourceUrl := none, expiryDate := some 5, scope := some "openid" }) = some c' ∧
      c'.accessToken = "a" ∧ c'.refreshToken = some "r" ∧
      c'.resourceUrl = none ∧ c'.expiryDate = some 5 ∧
      c'.scope = some "openid") :=
  ⟨by decide,
   load_save_roundTrip
     { accessToken := "a", tokenType := none, refreshToken := some "r",
       resourceUrl := none, expiryDate := some 5, scope := some "openid" }
     (by decide) (by decide) (by decide) (by norm_num)⟩

/-- Claim C10.  In `loadCredentials`' normalization: when the
snake_case variant of a field is truthy it wins over the camelCase
variant; a file whose only access-token field is the empty-string
`access_token` loads as absent overall; and a file whose `expiry_date`
is `0` (with no fallback field) loads as a credential with no expiry,
which `isCredentialsExpired` then treats as never expiring. -/
theorem loadParsed_normalization (f : CredsFile) :
    (∀ a, f.access_token = some a → a ≠ "" →
      ∃ c, loadParsed f = some c ∧ c.accessToken = a ∧
        (∀ r, f.refresh_token = some r → r ≠ "" → c.refreshToken = some r) ∧
        (∀ u, f.resource_url = some u → u ≠ "" → c.resourceUrl = some u) ∧
        (∀ q, f.expiry_date = some q → q ≠ 0 → c.expiryDate = some q)) ∧
    (f.access_token = some "" → f.accessToken = none → loadParsed f = none) ∧
    (f.expiry_date = some 0 → f.expiresAt = none → f.expires_at = none →
      ∀ c, loadParsed f = some c →
        c.expiryDate = none ∧ ∀ now, isCredentialsExpired now c = false) := by
  refine ⟨?_, ?_, ?_⟩
  · intro a hat ha
    simp only [loadParsed, jsOrStr, hat, if_neg ha]
    refine ⟨_, rfl, rfl, ?_, ?_, ?_⟩
    · intro r hrt hr
      simp [jsOrStr, hrt, hr]
    · intro u hut hu
      simp [jsOrStr, hut, hu]
    · intro q hqt hq
      simp [jsOrQ, hqt, hq]
  · intro hat hcat
    simp [loadParsed, jsOrStr, hat, hcat]
  · intro hed hea heb c hc
    have hexp : c.expiryDate = none := by
      simp only [loadParsed] at hc
      cases hx : jsOrStr f.access_token f.accessToken with
      | none => rw [hx] at hc; cases hc
      | some a =>
          rw [hx] at hc
          dsimp only at hc
          by_cases ha : a = ""
          · rw [if_pos ha] at hc; cases hc
          · rw [if_neg ha] at hc
            obtain rfl := Option.some_injective _ hc
            simp [jsOrQ, hed, hea, heb]
    refine ⟨hexp, fun now => ?_⟩
    simp [isCredentialsExpired, hexp]

/-- Claim C10, witness: a concrete file where every snake_case field is
set alongside a camelCase competitor, and concrete falsy-field files. -/
theorem loadParsed_normalization_witness :
    (∃ c, loadParsed
        { access_token := some "sa", accessToken := some "ca",
          token_type := some "Bearer", tokenType := some "bearer2",
          refresh_token := some "sr", refreshToken := some "cr",
          resource_url := some "su", resourceUrl := some "cu",
          expiry_date := some 9, expiresAt := some 8, expires_at := some 7,
          scope := some "sc" } = some c ∧ c.accessToken = "sa" ∧
        (∀ r, (some "sr" : Option String) = some r → r ≠ "" → c.refreshToken = some r) ∧
        (∀ u, (some "su" : Option String) = some u → u ≠ "" → c.resourceUrl = some u) ∧
        (∀ q, (some 9 : Option ℚ) = some q → q ≠ 0 → c.expiryDate = some q)) ∧
    loadParsed
        { access_token := some "", accessToken := none,
          token_type := none, tokenType := none,
          refresh_token := none, refreshToken := none,
          resource_url := none, resourceUrl := none,
          expiry_date := none, expiresAt := none, expires_at := none,
          scope := none } = none :=
  ⟨(loadParsed_normalization
      { access_token := some "sa", accessToken := some "ca",
        token_type := some "Bearer", tokenType := some "bearer2",
        refresh_token := some "sr", refreshToken := some "cr",
        resource_url := some "su", resourceUrl := some "cu",
        expiry_date := some 9, expiresAt := some 8, expires_at := some 7,
        scope := some "sc" }).1 "sa" rfl (by decide),
   (loadParsed_normalization
      { access_token := some "", accessToken := none,
        token_type := none, tokenType := none,
        refresh_token := none, refreshToken := none,
        resource_url := none, resourceUrl := none,
        expiry_date := none, expiresAt := none, expires_at := none,
        scope := none }).2.1 rfl rfl⟩

/-- Length of a padding-free base64url encoding: `⌈4n/3⌉` characters
for `n` input bytes. -/
theorem b64urlEncode_length :
    ∀ l : List Nat, (b64urlEncode l).length = (4 * l.length + 2) / 3
  | _ :: _ :: _ :: rest => by
      have ih := b64urlEncode_length rest
      simp only [b64urlEncode, List.length_cons, ih]
      omega
  | [_, _] => by simp [b64urlEncode]
  | [_] => by simp [b64urlEncode]
  | [] => by simp [b64urlEncode]

/-- Claim C8.  For every generated PKCE pair, the challenge is the
padding-free base64url encoding of the SHA-256 digest of the verifier's
ASCII bytes, and the verifier — the base64url encoding of the 32
random bytes `randomBytes(32)` yields — has at least 43 characters.
The two Node-crypto externals are universally quantified: `sha256Fn`
models the digest, `randomBytes` the RNG output. -/
theorem generatePKCE_spec (sha256Fn : List Nat → List Nat) (randomBytes : List Nat)
    (h : randomBytes.length = 32) :
    43 ≤ (generatePKCE sha256Fn randomBytes).1.length ∧
    (generatePKCE sha256Fn randomBytes).2 =
      String.mk (b64urlEncode (sha256Fn (asciiBytes (generatePKCE sha256Fn randomBytes).1))) := by
  constructor
  · have hlen : (generatePKCE sha256Fn randomBytes).1.length
        = (b64urlEncode randomBytes).length := rfl
    rw [hlen, b64urlEncode_length, h]
  · rfl

/-- Claim C8, witness: 32 zero bytes and a stand-in digest function. -/
theorem generatePKCE_spec_witness :
    (List.replicate 32 0).length = 32 ∧
    (43 ≤ (generatePKCE (fun _ => List.replicate 32 1) (List.replicate 32 0)).1.length ∧
      (generatePKCE (fun _ => List.replicate 32 1) (List.replicate 32 0)).2 =
        String.mk (b64urlEncode ((fun _ => List.replicate 32 1)
          (asciiBytes (generatePKCE (fun _ => List.replicate 32 1) (List.replicate 32 0)).1)))) :=
  ⟨by simp, generatePKCE_spec (fun _ => List.replicate 32 1) (List.replicate 32 0) (by simp)⟩

/-- Claim C1.  An HTTP 429 `slow_down` response does not increase the
poll interval: `pollDeviceToken` returns `null` for it (the same signal
as `authorization_pending`), so the `slow_down` catch branch of
`performDeviceAuthFlow` never runs.  In a run hitting two consecutive
429 `slow_down` responses with base interval 2000, the polls land at
2000, 4000 and 6000 ms: every gap stays 2000 instead of growing
`min(base * 1.5^n, 10000)` as the code's own comments ("Still pending,
but should slow down", "Increase interval, max 10s") intend. -/
theorem slow_down_response_does_not_back_off :
    pollDeviceToken slowDownResp = PollOutcome.pending ∧
    (performDeviceAuthFlow [slowDownResp, slowDownResp, okTokResp] 0 2000 300000).1
      = [2000, 4000, 6000] := by
  constructor
  · decide
  · norm_num [performDeviceAuthFlow, authFlowRun, pollDeviceToken, slowDownResp, okTokResp]

/-- Claim C2, counterexample.  `performDeviceAuthFlow` never consults
the device code's `expires_in`: with a device code that expires after
one second and the source's default 2000 ms base interval and 300000 ms
timeout, the first poll is issued at 2000 ms — after the device code's
own expiry. -/
theorem flow_polls_past_device_expiry_cex :
    sampleDeviceAuth.expires_in = 1 ∧
    (performDeviceAuthFlow [pendingResp] 0 2000 300000).1 = [2000] ∧
    (0 : ℚ) + sampleDeviceAuth.expires_in * 1000 < 2000 := by
  refine ⟨rfl, ?_, by norm_num [sampleDeviceAuth]⟩
  norm_num [performDeviceAuthFlow, authFlowRun, pollDeviceToken, pendingResp]

/-- The poll loop cannot run out of a response trace of length at least
`timeoutMs / min(interval, 10000)`: each iteration advances the clock
by at least `min` of the initial interval and the 10000 ms cap. -/
theorem authFlowRun_not_exhausted (m : ℚ) (hm : 0 < m) (hm10 : m ≤ 10000) :
    ∀ (resps : List PollHttp) (startTime timeoutMs now interval : ℚ),
      m ≤ interval →
      timeoutMs ≤ now - startTime + (resps.length : ℚ) * m →
      (authFlowRun startTime timeoutMs resps now interval).2 ≠ FlowResult.exhausted := by
  intro resps
  induction resps with
  | nil =>
      intro s t now i hi hf
      have hng : ¬ (now - s < t) := by
        simp only [List.length_nil, Nat.cast_zero, zero_mul, add_zero] at hf
        linarith
      simp [authFlowRun, hng]
  | cons r rs ih =>
      intro s t now i hi hf
      have hfuel : t ≤ now + i - s + (rs.length : ℚ) * m := by
        push_cast [List.length_cons] at hf
        nlinarith [hf, hi]
      simp only [authFlowRun]
      by_cases hg : now - s < t
      · rw [if_pos hg]
        cases hp : pollDeviceToken r with
        | success tk => simp
        | pending =>
            dsimp only
            exact ih s t (now + i) i hi hfuel
        | failed msg =>
            dsimp only
            by_cases hs : strIncludes msg "slow_down" = true
            · rw [if_pos hs]
              refine ih s t (now + i) (min (i * (3 / 2)) 10000) (le_min ?_ hm10) hfuel
              nlinarith [hi, hm]
            · rw [if_neg hs]; simp
      · rw [if_neg hg]; simp

/-- Every poll of the loop is issued strictly before
`startTime + timeoutMs + M`, where `M` bounds every interval the loop
can use (any `M` at least the initial interval and the 10000 ms cap):
the deadline guard runs before each sleep, so the last poll can trail
the deadline by at most one interval. -/
theorem authFlowRun_pollTimes_bound (M : ℚ) (hM : 10000 ≤ M) :
    ∀ (resps : List PollHttp) (startTime timeoutMs now interval : ℚ),
      interval ≤ M →
      ∀ t ∈ (authFlowRun startTime timeoutMs resps now interval).1,
        t < startTime + timeoutMs + M := by
  intro resps
  induction resps with
  | nil =>
      intro s tm now i hi t ht
      by_cases hg : now - s < tm <;> simp [authFlowRun, hg] at ht
  | cons r rs ih =>
      intro s tm now i hi t ht
      simp only [authFlowRun] at ht
      by_cases hg : now - s < tm
      · rw [if_pos hg] at ht
        cases hp : pollDeviceToken r with
        | success tk =>
            rw [hp] at ht
            simp only [List.mem_singleton] at ht
            subst ht; linarith
        | pending =>
            rw [hp] at ht
            dsimp only at ht
            rcases List.mem_cons.mp ht with h | h
            · subst h; linarith
            · exact ih s tm (now + i) i hi t h
        | failed msg =>
            rw [hp] at ht
            dsimp only at ht
            by_cases hs : strIncludes msg "slow_down" = true
            · rw [if_pos hs] at ht
              rcases List.mem_cons.mp ht with h | h
              · subst h; linarith
              · exact ih s tm (now + i) (min (i * (3 / 2)) 10000)
                  (le_trans (min_le_right _ _) hM) t h
            · rw [if_neg hs] at ht
              simp only [List.mem_singleton] at ht
              subst ht; linarith
      · rw [if_neg hg] at ht
        simp at ht

/-- Claim C2, amended.  The poll loop of `performDeviceAuthFlow` is
bounded by its `timeoutMs` parameter, not by the device code's
`expires_in` (which it never reads): given a positive base interval and
a response trace long enough to cover `timeoutMs`, the loop terminates
(and, absent success or a fatal poll error, returns the
device-authorization-timeout failure), and every poll it issues lands
strictly before `startTime + timeoutMs` plus one maximal interval.
Polls after the device code's own expiry are possible whenever
`expires_in * 1000 < timeoutMs` (see the counterexample). -/
theorem flow_bounded_by_caller_timeout (resps : List PollHttp)
    (start pollIntervalMs timeoutMs : ℚ) (hinit : 0 < pollIntervalMs)
    (hfuel : timeoutMs ≤ (resps.length : ℚ) * min pollIntervalMs 10000) :
    (performDeviceAuthFlow resps start pollIntervalMs timeoutMs).2 ≠ FlowResult.exhausted ∧
    ∀ t ∈ (performDeviceAuthFlow resps start pollIntervalMs timeoutMs).1,
      t < start + timeoutMs + max pollIntervalMs 10000 := by
  constructor
  · apply authFlowRun_not_exhausted (min pollIntervalMs 10000)
      (lt_min hinit (by norm_num)) (min_le_right _ _) resps start timeoutMs start
      pollIntervalMs (min_le_left _ _)
    simpa using hfuel
  · intro t ht
    exact authFlowRun_pollTimes_bound (max pollIntervalMs 10000) (le_max_right _ _)
      resps start timeoutMs start pollIntervalMs (le_max_left _ _) t ht

/-- Claim C2, witness for the amended theorem: a two-response pending
trace with a 100000 ms base interval and a 20000 ms timeout. -/
theorem flow_bounded_by_caller_timeout_witness :
    (0 : ℚ) < 100000 ∧
    (20000 : ℚ) ≤ (([pendingResp, pendingResp] : List PollHttp).length : ℚ)
      * min (100000 : ℚ) 10000 ∧
    ((performDeviceAuthFlow [pendingResp, pendingResp] 0 100000 20000).2
        ≠ FlowResult.exhausted ∧
      ∀ t ∈ (performDeviceAuthFlow [pendingResp, pendingResp] 0 100000 20000).1,
        t < 0 + 20000 + max (100000 : ℚ) 10000) :=
  ⟨by norm_num,
   by norm_num [min_def],
   flow_bounded_by_caller_timeout [pendingResp, pendingResp] 0 100000 20000
     (by norm_num) (by norm_num [min_def])⟩

/-- Every credential `loadCredentials` yields has a nonempty access
token (the truthiness guard on `access_token || accessToken`). -/
theorem loadCredentials_accessToken_nonempty (st : FileState) (c : QwenCredentials)
    (h : loadCredentials st = some c) : c.accessToken ≠ "" := by
  cases st with
  | missing => cases h
  | malformed raw => cases h
  | parsed f =>
      simp only [loadCredentials, loadParsed] at h
      cases hx : jsOrStr f.access_token f.accessToken with
      | none => rw [hx] at h; cases h
      | some a =>
          rw [hx] at h
          dsimp only at h
          by_cases ha : a = ""
          · rw [if_pos ha] at h; cases h
          · rw [if_neg ha] at h
            obtain rfl := Option.some_injective _ h
            simpa using ha

/-- A credential returned by `checkExistingCredentials` is exactly the
one `loadCredentials` yields for the same store. -/
theorem checkExisting_load (now : ℚ) (store : FileState) (c : QwenCredentials)
    (h : checkExistingCredentials now store = some c) :
    loadCredentials store = some c := by
  cases store with
  | missing => cases h
  | malformed raw => cases h
  | parsed f =>
      simp only [checkExistingCredentials] at h
      cases hl : loadCredentials (FileState.parsed f) with
      | none => rw [hl] at h; cases h
      | some c' =>
          rw [hl] at h
          dsimp only at h
          by_cases he : isCredentialsExpired now c'
          · rw [if_pos he] at h; cases h
          · rw [if_neg he] at h
            obtain rfl := Option.some_injective _ h
            exact rfl

/-- Claim C7.  A failed refresh never writes to the credential store,
and at the lifecycle level the failure is absorbed: the `loader` leaves
the store untouched, discards the expired host access token, and falls
back to the locally stored credential (returning exactly the
non-expired local credential's token, or nothing); `getValidCredentials`
likewise leaves the store untouched on any refresh failure. -/
theorem refresh_failure_preserves_store (now : ℚ) (a : HostAuth)
    (st : Nat) (raw : String) (store : FileState)
    (hoauth : a.type = "oauth") (href : shouldRefresh now a = true) :
    (loader now (some a) (RefreshHttp.errResp st raw) store).1 = store ∧
    (loader now (some a) (RefreshHttp.errResp st raw) store).2 =
      (checkExistingCredentials now store).map (fun c =>
        ⟨c.accessToken,
          getBaseUrl ((loadCredentials store).bind QwenCredentials.resourceUrl)⟩) ∧
    (getValidCredentials now (RefreshHttp.errResp st raw) store).1 = store := by
  have hL : loader now (some a) (RefreshHttp.errResp st raw) store
      = (store, (checkExistingCredentials now store).map (fun c =>
          ⟨c.accessToken,
            getBaseUrl ((loadCredentials store).bind QwenCredentials.resourceUrl)⟩)) := by
    simp only [loader, hoauth, ne_eq, not_true_eq_false, if_false, href, if_true,
      refreshAccessToken, truthyStr]
    rcases hce : checkExistingCredentials now store with _ | c
    · simp
    · have hne : c.accessToken ≠ "" :=
        loadCredentials_accessToken_nonempty store c (checkExisting_load now store c hce)
      simp [hne]
  have hG : (getValidCredentials now (RefreshHttp.errResp st raw) store).1 = store := by
    rcases hl : loadCredentials store with _ | c
    · simp [getValidCredentials, hl]
    · rcases hr : c.refreshToken with _ | r
      · simp [getValidCredentials, hl, hr]
      · by_cases hcond : isCredentialsExpired now c = true ∧ r ≠ ""
        · simp [getValidCredentials, hl, hr, hcond, refreshAccessToken]
        · simp [getValidCredentials, hl, hr, hcond]
  exact ⟨by rw [hL], by rw [hL], hG⟩

/-- Claim C7, witness: an expired host credential, a failing refresh
endpoint, and a missing local store. -/
theorem refresh_failure_preserves_store_witness :
    hostAuthSample.type = "oauth" ∧
    shouldRefresh 1000000 hostAuthSample = true ∧
    ((loader 1000000 (some hostAuthSample) (RefreshHttp.errResp 500 "boom")
        FileState.missing).1 = FileState.missing ∧
      (loader 1000000 (some hostAuthSample) (RefreshHttp.errResp 500 "boom")
          FileState.missing).2 =
        (checkExistingCredentials 1000000 FileState.missing).map (fun c =>
          ⟨c.accessToken,
            getBaseUrl ((loadCredentials FileState.missing).bind
              QwenCredentials.resourceUrl)⟩) ∧
      (getValidCredentials 1000000 (RefreshHttp.errResp 500 "boom")
          FileState.missing).1 = FileState.missing) :=
  ⟨rfl,
   by norm_num [shouldRefresh, hostAuthSample, truthyStr, truthyNum]; decide,
   refresh_failure_preserves_store 1000000 hostAuthSample 500 "boom" FileState.missing rfl
     (by norm_num [shouldRefresh, hostAuthSample, truthyStr, truthyNum]; decide)⟩

end QwenAuth
